import Mathlib

/-!
# Verification of the mock rating-engine worker

Shallow embedding of the Cloudflare Worker request handler
(`rating-api-worker.js`, the repository's quote-pricing backend) and proofs
about its validation cascade, premium formula and quote-identifier format.

JavaScript numbers are modelled as extended rationals (`JSNum`): a finite
rational, `NaN`, `+Infinity` or `-Infinity`.  JSON-level values are modelled
by `JSValue`.  The handler is parameterised over its two impure sources:
`Date.now()` (a natural number of unix milliseconds) and the fractional
base-36 digits that `Math.random().toString(36)` prints after `"0."`
(the empty list when the draw is exactly `0`, whose `toString(36)` is `"0"`).
-/

namespace RatingWorker

/-- A JavaScript number: finite (modelled exactly as a rational), `NaN`,
`+Infinity` or `-Infinity`. -/
inductive JSNum where
  | fin (q : ℚ)
  | nan
  | inf
  | negInf
deriving DecidableEq, Repr

/-- A JSON-level JavaScript value as destructured from the parsed body. -/
inductive JSValue where
  | num (n : JSNum)
  | str (s : String)
  | bool (b : Bool)
  | null
  | undefined
deriving DecidableEq, Repr

namespace JSNum

/-- JavaScript multiplication on numbers (`NaN` propagates; infinities follow
sign rules, `±Infinity * 0 = NaN`). -/
def mul : JSNum → JSNum → JSNum
  | nan, _ => nan
  | _, nan => nan
  | fin a, fin b => fin (a * b)
  | inf, fin b => if b > 0 then inf else if b < 0 then negInf else nan
  | fin a, inf => if a > 0 then inf else if a < 0 then negInf else nan
  | negInf, fin b => if b > 0 then negInf else if b < 0 then inf else nan
  | fin a, negInf => if a > 0 then negInf else if a < 0 then inf else nan
  | inf, inf => inf
  | inf, negInf => negInf
  | negInf, inf => negInf
  | negInf, negInf => inf

/-- `Math.round`: floor of `x + 1/2` on finite values (JavaScript rounds
half-way cases toward `+Infinity`); `NaN` and infinities pass through. -/
def round : JSNum → JSNum
  | fin q => fin (Rat.floor (q + 1/2) : ℤ)
  | nan => nan
  | inf => inf
  | negInf => negInf

/-- Division of a JavaScript number by the nonzero literal `100`. -/
def div100 : JSNum → JSNum
  | fin q => fin (q / 100)
  | nan => nan
  | inf => inf
  | negInf => negInf

/-- The comparison `n < 0` under JavaScript semantics: `NaN < 0` is false. -/
def lt0 : JSNum → Bool
  | fin q => q < 0
  | nan => false
  | inf => false
  | negInf => true

end JSNum

namespace JSValue

/-- `typeof v === 'number'`. -/
def isNumber : JSValue → Bool
  | num _ => true
  | _ => false

/-- JavaScript truthiness: `undefined`, `null`, `false`, `0`, `NaN` and the
empty string are falsy. -/
def truthy : JSValue → Bool
  | num (.fin q) => q ≠ 0
  | num .nan => false
  | num _ => true
  | str s => s ≠ ""
  | bool b => b
  | null => false
  | undefined => false

end JSValue

/-- The destructured request body `const { revenue, state, business } = body`.
A field absent from the JSON object destructures to `undefined`. -/
structure Body where
  revenue : JSValue
  state : JSValue
  business : JSValue
deriving DecidableEq, Repr

/-- The JSON payload of a `Response`, as built by the worker. -/
inductive ResBody where
  /-- `new Response(null, ...)` (the CORS preflight reply). -/
  | empty
  /-- `{ error, message }`; the 405 reply has no `message` field. -/
  | err (error : String) (message : Option String)
  /-- `{ premium, quoteId, calculatedAt }`; `calculatedAt` is kept as the
  millisecond timestamp the ISO string is rendered from. -/
  | quote (premium : JSNum) (quoteId : String) (calculatedAt : ℕ)
deriving DecidableEq, Repr

/-- An HTTP response: status code plus JSON payload. -/
structure Response where
  status : ℕ
  body : ResBody
deriving DecidableEq, Repr

/-- ASCII uppercasing of one character, as `String.prototype.toUpperCase`
acts on ASCII letters. -/
def charUpper (c : Char) : Char :=
  if 'a' ≤ c ∧ c ≤ 'z' then Char.ofNat (c.toNat - 32) else c

/-- ASCII lowercasing of one character, as `String.prototype.toLowerCase`
acts on ASCII letters. -/
def charLower (c : Char) : Char :=
  if 'A' ≤ c ∧ c ≤ 'Z' then Char.ofNat (c.toNat + 32) else c

/-- `s.toUpperCase()`. -/
def jsUpper (s : String) : String := String.mk (s.data.map charUpper)

/-- `s.toLowerCase()`. -/
def jsLower (s : String) : String := String.mk (s.data.map charLower)

/-- `const validStates = ['CA', 'TX', 'NY', 'WI', 'OH', 'IL', 'NV']`. -/
def validStates : List String := ["CA", "TX", "NY", "WI", "OH", "IL", "NV"]

/-- `const validBusinessTypes = ['retail', 'restaurant', 'professional',
'manufacturing']`. -/
def validBusinessTypes : List String :=
  ["retail", "restaurant", "professional", "manufacturing"]

/-- The `businessMultipliers` object: property lookup yields `undefined`
(`none`) for keys not present. -/
def businessMultipliers : String → Option ℚ
  | "retail" => some 1
  | "restaurant" => some (13/10)
  | "professional" => some (8/10)
  | "manufacturing" => some (15/10)
  | _ => none

/-- The `stateMultipliers` object. -/
def stateMultipliers : String → Option ℚ
  | "CA" => some (12/10)
  | "TX" => some 1
  | "NY" => some (13/10)
  | "WI" => some (9/10)
  | "OH" => some (85/100)
  | "IL" => some (11/10)
  | "NV" => some (115/100)
  | _ => none

/-- `let baseRate = 0.025`. -/
def baseRate : ℚ := 25/1000

/-- Reading an object property as a JavaScript number: a missing property is
`undefined`, and `undefined` used in arithmetic becomes `NaN`. -/
def lookupNum (tbl : String → Option ℚ) (k : String) : JSNum :=
  match tbl k with
  | some q => JSNum.fin q
  | none => JSNum.nan

/-- `Math.round(revenue * baseRate * businessMultiplier * stateMultiplier
* 100) / 100`, with the multiplications in source order. -/
def premiumNum (revenue bm sm : JSNum) : JSNum :=
  JSNum.div100 (JSNum.round
    (JSNum.mul (JSNum.mul (JSNum.mul (JSNum.mul revenue (.fin baseRate)) bm) sm)
      (.fin 100)))

/-- Decimal digit character for `d < 10`. -/
def digitChar (d : ℕ) : Char := Char.ofNat (48 + d)

/-- Base-36 digit character, lowercase as `Number.prototype.toString(36)`
prints it (`0`-`9` then `a`-`z`). -/
def base36Char (d : ℕ) : Char :=
  if d < 10 then Char.ofNat (48 + d) else Char.ofNat (97 + (d - 10))

/-- Decimal digit list of a natural number (fuel-indexed so that it is
structurally recursive and kernel-reducible). -/
def natDigitsAux : ℕ → ℕ → List Char
  | 0, _ => []
  | fuel + 1, n =>
    if n < 10 then [digitChar n]
    else natDigitsAux fuel (n / 10) ++ [digitChar (n % 10)]

/-- Decimal rendering of a natural number, as `${Date.now()}` prints the
timestamp. -/
def natToString (n : ℕ) : String := String.mk (natDigitsAux (n + 1) n)

/-- `Math.random().toString(36)` for a draw in `[0, 1)`, abstracted over the
fractional base-36 digits the engine prints: a draw of exactly `0` prints
`"0"` (no digits), any other draw prints `"0."` followed by its digits. -/
def randToString36 (digits : List ℕ) : String :=
  match digits with
  | [] => "0"
  | _ => "0." ++ String.mk (digits.map base36Char)

/-- `s.substr(start, len)`: `len` characters from index `start`. -/
def jsSubstr (s : String) (start len : ℕ) : String :=
  String.mk ((s.data.drop start).take len)

/-- `Math.random().toString(36).substr(2, 5).toUpperCase()`. -/
def randSuffix (digits : List ℕ) : String :=
  jsUpper (jsSubstr (randToString36 digits) 2 5)

/-- `` `Q-${Date.now()}-${Math.random().toString(36).substr(2, 5).toUpperCase()}` ``. -/
def mkQuoteId (now : ℕ) (digits : List ℕ) : String :=
  "Q-" ++ natToString now ++ "-" ++ randSuffix digits

/-- The `Missing required fields` response. -/
def missingFieldsResp : Response :=
  ⟨400, .err "Missing required fields" (some "Revenue, state, and business are required")⟩

/-- The `Invalid revenue` response. -/
def invalidRevenueResp : Response :=
  ⟨400, .err "Invalid revenue" (some "Revenue must be a positive number")⟩

/-- The `Invalid state` response. -/
def invalidStateResp : Response :=
  ⟨400, .err "Invalid state" (some "State must be one of: CA, TX, NY, WI, OH, IL, NV")⟩

/-- The `Invalid business type` response. -/
def invalidBusinessResp : Response :=
  ⟨400, .err "Invalid business type"
    (some "Business must be one of: retail, restaurant, professional, manufacturing")⟩

/-- The `Invalid JSON` response produced by the `catch` block. -/
def invalidJSONResp : Response :=
  ⟨400, .err "Invalid JSON" (some "Request body must be valid JSON")⟩

/-- The 405 response for non-POST methods (its body has only an `error`). -/
def methodNotAllowedResp : Response := ⟨405, .err "Method not allowed" none⟩

/-- The CORS-preflight response: `new Response(null, { headers })`, whose
status defaults to 200. -/
def preflightResp : Response := ⟨200, .empty⟩

/-- `revenue === undefined || !state || !business`. -/
def missingFields (b : Body) : Bool :=
  b.revenue = JSValue.undefined || !b.state.truthy || !b.business.truthy

/-- `typeof revenue !== 'number' || revenue < 0` (the `< 0` only evaluated on
numbers, matching `||` short-circuiting). -/
def invalidRevenue : JSValue → Bool
  | .num n => n.lt0
  | _ => true

/-- The handler body after `await request.json()` succeeded.  Calling
`.toUpperCase()` / `.toLowerCase()` on a truthy non-string throws a
`TypeError`, which the surrounding `try` turns into the `Invalid JSON`
response. -/
def handleBody (b : Body) (now : ℕ) (digits : List ℕ) : Response :=
  if missingFields b then missingFieldsResp
  else if invalidRevenue b.revenue then invalidRevenueResp
  else
    match b.state with
    | .str s =>
      if !(validStates.contains (jsUpper s)) then invalidStateResp
      else
        match b.business with
        | .str bz =>
          if !(validBusinessTypes.contains (jsLower bz)) then invalidBusinessResp
          else
            Response.mk 200 (.quote
              (premiumNum
                (match b.revenue with | .num n => n | _ => JSNum.nan)
                (lookupNum businessMultipliers (jsLower bz))
                (lookupNum stateMultipliers (jsUpper s)))
              (mkQuoteId now digits) now)
        | _ => invalidJSONResp
    | _ => invalidJSONResp

/-- The worker's `fetch` entry point.  `body? = none` models a request whose
body fails `await request.json()`. -/
def fetch (method : String) (body? : Option Body) (now : ℕ) (digits : List ℕ) :
    Response :=
  if method = "OPTIONS" then preflightResp
  else if method ≠ "POST" then methodNotAllowedResp
  else
    match body? with
    | none => invalidJSONResp
    | some b => handleBody b now digits

/-- The `premium` field of a successful response. -/
def premiumVal (r : Response) : Option JSNum :=
  match r.body with
  | .quote p _ _ => some p
  | _ => none

/-- The `error` field of an error response. -/
def responseError (r : Response) : Option String :=
  match r.body with
  | .err e _ => some e
  | _ => none

/-- The `quoteId` field of a successful response. -/
def quoteIdVal (r : Response) : Option String :=
  match r.body with
  | .quote _ qid _ => some qid
  | _ => none

/-- Rounding half-up to 2 decimal places (the spec's description of the
premium rounding; for nonnegative arguments `⌊x•100 + 1/2⌋ / 100` is exactly
round-half-up to the cent). -/
def roundHalfUpTo2 (x : ℚ) : ℚ := (⌊x * 100 + 1/2⌋ : ℤ) / 100

/-- An uppercase alphanumeric character, the `[A-Z0-9]` character class. -/
def isUpperAlnum (c : Char) : Bool :=
  ('A' ≤ c && c ≤ 'Z') || ('0' ≤ c && c ≤ '9')

/-- Decision procedure for the regular expression `^Q-\d+-[A-Z0-9]+$`.
Taking the digit run greedily is complete here: if the character after the
maximal digit run is not `-`, no shorter digit run can be followed by `-`
either, so no backtracking is needed. -/
def matchesQuoteIdPattern (s : String) : Bool :=
  match s.data with
  | 'Q' :: '-' :: rest =>
    let ds := rest.takeWhile (fun c => c.isDigit)
    let tl := rest.dropWhile (fun c => c.isDigit)
    !ds.isEmpty &&
      (match tl with
       | '-' :: suffix => !suffix.isEmpty && suffix.all isUpperAlnum
       | _ => false)
  | _ => false

/-- Two characters that are the same letter up to ASCII case. -/
def charCaseEq (c d : Char) : Bool :=
  charUpper c = charUpper d && charLower c = charLower d

/-- Two character lists that agree up to ASCII case, position by position. -/
def caseVariantChars : List Char → List Char → Bool
  | [], [] => true
  | c :: cs, d :: ds => charCaseEq c d && caseVariantChars cs ds
  | _, _ => false

/-- `t` is a mixed-case variant of `s`: same letters, any capitalisation. -/
def caseVariant (s t : String) : Bool := caseVariantChars s.data t.data

/-! ## Basic lemmas -/

theorem ratFloor_eq (x : ℚ) : (Rat.floor x : ℤ) = ⌊x⌋ :=
  (Rat.floor_def' x).trans Rat.floor_def.symm

theorem stateMult_of_mem {u : String} (h : validStates.contains u = true) :
    ∃ sm : ℚ, stateMultipliers u = some sm ∧ 0 < sm ∧ 85/100 ≤ sm ∧ sm ≤ 13/10 := by
  have hu : u ∈ validStates := by simpa using h
  simp only [validStates, List.mem_cons, List.not_mem_nil, or_false] at hu
  rcases hu with rfl | rfl | rfl | rfl | rfl | rfl | rfl
  · exact ⟨12/10, rfl, by norm_num⟩
  · exact ⟨1, rfl, by norm_num⟩
  · exact ⟨13/10, rfl, by norm_num⟩
  · exact ⟨9/10, rfl, by norm_num⟩
  · exact ⟨85/100, rfl, by norm_num⟩
  · exact ⟨11/10, rfl, by norm_num⟩
  · exact ⟨115/100, rfl, by norm_num⟩

theorem businessMult_of_mem {u : String} (h : validBusinessTypes.contains u = true) :
    ∃ bm : ℚ, businessMultipliers u = some bm ∧ 0 < bm ∧ 8/10 ≤ bm ∧ bm ≤ 15/10 := by
  have hu : u ∈ validBusinessTypes := by simpa using h
  simp only [validBusinessTypes, List.mem_cons, List.not_mem_nil, or_false] at hu
  rcases hu with rfl | rfl | rfl | rfl
  · exact ⟨1, rfl, by norm_num⟩
  · exact ⟨13/10, rfl, by norm_num⟩
  · exact ⟨8/10, rfl, by norm_num⟩
  · exact ⟨15/10, rfl, by norm_num⟩

theorem state_ne_empty {s : String} (h : validStates.contains (jsUpper s) = true) :
    s ≠ "" := by
  rintro rfl
  exact absurd h (by decide)

theorem business_ne_empty {s : String}
    (h : validBusinessTypes.contains (jsLower s) = true) : s ≠ "" := by
  rintro rfl
  exact absurd h (by decide)

/-- The success path of the handler: a finite nonnegative revenue with valid
state and business yields the 200 quote response with the rounded premium. -/
theorem handle_success (q : ℚ) (s bz : String) (now : ℕ) (rd : List ℕ)
    (bm sm : ℚ)
    (hq : ¬ q < 0)
    (hs : validStates.contains (jsUpper s) = true)
    (hb : validBusinessTypes.contains (jsLower bz) = true)
    (hbm : businessMultipliers (jsLower bz) = some bm)
    (hsm : stateMultipliers (jsUpper s) = some sm) :
    fetch "POST" (some ⟨.num (.fin q), .str s, .str bz⟩) now rd =
      ⟨200, .quote (.fin ((⌊q * baseRate * bm * sm * 100 + 1/2⌋ : ℤ) / 100))
        (mkQuoteId now rd) now⟩ := by
  have hs' : s ≠ "" := state_ne_empty hs
  have hb' : bz ≠ "" := business_ne_empty hb
  simp only [fetch, if_neg (by decide : ¬ ("POST" : String) = "OPTIONS"),
    if_neg (by simp : ¬ ("POST" : String) ≠ "POST")]
  simp only [handleBody, missingFields, JSValue.truthy, invalidRevenue, JSNum.lt0,
    hs, hb, lookupNum, hbm, hsm, premiumNum, JSNum.mul, JSNum.round, JSNum.div100,
    ratFloor_eq]
  simp [hs', hb', hq]

/-! ## Case-insensitivity lemmas -/

theorem caseVariantChars_map_upper :
    ∀ {cs ds : List Char}, caseVariantChars cs ds = true →
      cs.map charUpper = ds.map charUpper
  | [], [], _ => rfl
  | c :: cs, d :: ds, h => by
    simp only [caseVariantChars, charCaseEq, Bool.and_eq_true, decide_eq_true_eq] at h
    simp only [List.map_cons, h.1.1, caseVariantChars_map_upper h.2]

theorem caseVariantChars_map_lower :
    ∀ {cs ds : List Char}, caseVariantChars cs ds = true →
      cs.map charLower = ds.map charLower
  | [], [], _ => rfl
  | c :: cs, d :: ds, h => by
    simp only [caseVariantChars, charCaseEq, Bool.and_eq_true, decide_eq_true_eq] at h
    simp only [List.map_cons, h.1.2, caseVariantChars_map_lower h.2]

theorem caseVariantChars_nil_iff :
    ∀ {cs ds : List Char}, caseVariantChars cs ds = true → (cs = [] ↔ ds = [])
  | [], [], _ => by simp
  | _ :: _, _ :: _, _ => by simp

theorem caseVariant_jsUpper {s t : String} (h : caseVariant s t = true) :
    jsUpper s = jsUpper t := by
  simp only [jsUpper, caseVariantChars_map_upper h]

theorem caseVariant_jsLower {s t : String} (h : caseVariant s t = true) :
    jsLower s = jsLower t := by
  simp only [jsLower, caseVariantChars_map_lower h]

theorem caseVariant_empty_iff {s t : String} (h : caseVariant s t = true) :
    (s ≠ "") ↔ (t ≠ "") := by
  have hd := @caseVariantChars_nil_iff s.data t.data h
  have h1 : (s = "") ↔ s.data = [] := ⟨fun e => e ▸ rfl, fun e => String.ext e⟩
  have h2 : (t = "") ↔ t.data = [] := ⟨fun e => e ▸ rfl, fun e => String.ext e⟩
  rw [not_iff_not, h1, h2]
  exact hd

/-- The handler treats any mixed-case variants of `state` and `business`
identically: the whole response is unchanged. -/
theorem fetch_caseVariant (rev : JSValue) (s t bz bw : String) (now : ℕ)
    (rd : List ℕ) (hst : caseVariant s t = true) (hbw : caseVariant bz bw = true) :
    fetch "POST" (some ⟨rev, .str s, .str bz⟩) now rd =
      fetch "POST" (some ⟨rev, .str t, .str bw⟩) now rd := by
  have hU : jsUpper s = jsUpper t := caseVariant_jsUpper hst
  have hL : jsLower bz = jsLower bw := caseVariant_jsLower hbw
  have hne : decide (s ≠ "") = decide (t ≠ "") :=
    decide_eq_decide.mpr (caseVariant_empty_iff hst)
  have hbne : decide (bz ≠ "") = decide (bw ≠ "") :=
    decide_eq_decide.mpr (caseVariant_empty_iff hbw)
  simp only [fetch, handleBody, missingFields, JSValue.truthy, hU, hL, hne, hbne]

/-! ## Rounding arithmetic -/

theorem floorDiv100_mono {a b : ℚ} (h : a ≤ b) :
    ((⌊a + 1/2⌋ : ℤ) : ℚ) / 100 ≤ ((⌊b + 1/2⌋ : ℤ) : ℚ) / 100 := by
  have h1 : ⌊a + 1/2⌋ ≤ ⌊b + 1/2⌋ := Int.floor_le_floor (by linarith)
  have h2 : ((⌊a + 1/2⌋ : ℤ) : ℚ) ≤ ((⌊b + 1/2⌋ : ℤ) : ℚ) := by exact_mod_cast h1
  linarith

theorem floorDiv100_strict {a b : ℚ} (h : a + 1 ≤ b) :
    ((⌊a + 1/2⌋ : ℤ) : ℚ) / 100 < ((⌊b + 1/2⌋ : ℤ) : ℚ) / 100 := by
  have hfa : (⌊a + 1/2⌋ : ℚ) ≤ a + 1/2 := Int.floor_le _
  have h1 : ⌊a + 1/2⌋ + 1 ≤ ⌊b + 1/2⌋ := by
    apply Int.le_floor.mpr
    push_cast
    linarith
  have h2 : ((⌊a + 1/2⌋ : ℤ) : ℚ) + 1 ≤ ((⌊b + 1/2⌋ : ℤ) : ℚ) := by exact_mod_cast h1
  linarith

theorem floor_double_bound (x : ℚ) :
    |((⌊2 * x + 1/2⌋ : ℤ) : ℚ) / 100 - 2 * (((⌊x + 1/2⌋ : ℤ) : ℚ) / 100)| ≤ 1/100 := by
  have h1 : ((⌊x + 1/2⌋ : ℤ) : ℚ) ≤ x + 1/2 := Int.floor_le _
  have h2 : x + 1/2 < ((⌊x + 1/2⌋ : ℤ) : ℚ) + 1 := Int.lt_floor_add_one _
  have hlo : (2 * ⌊x + 1/2⌋ - 1 : ℤ) ≤ ⌊2 * x + 1/2⌋ := by
    apply Int.le_floor.mpr
    push_cast
    linarith
  have hhi : ⌊2 * x + 1/2⌋ < 2 * ⌊x + 1/2⌋ + 2 := by
    apply Int.floor_lt.mpr
    push_cast
    linarith
  have hlo' : (2 * ⌊x + 1/2⌋ - 1 : ℚ) ≤ ((⌊2 * x + 1/2⌋ : ℤ) : ℚ) := by exact_mod_cast hlo
  have hhi' : ((⌊2 * x + 1/2⌋ : ℤ) : ℚ) ≤ 2 * ⌊x + 1/2⌋ + 1 := by
    have : ⌊2 * x + 1/2⌋ ≤ 2 * ⌊x + 1/2⌋ + 1 := by omega
    exact_mod_cast this
  rw [abs_le]
  constructor <;> linarith

/-! ## Digit strings and the quote identifier -/

theorem natDigitsAux_spec : ∀ (fuel n : ℕ), n < fuel →
    natDigitsAux fuel n ≠ [] ∧ ∀ c ∈ natDigitsAux fuel n, c.isDigit = true := by
  intro fuel
  induction fuel with
  | zero => omega
  | succ f ih =>
    intro n hn
    by_cases h10 : n < 10
    · refine ⟨by simp [natDigitsAux, h10], ?_⟩
      intro c hc
      simp only [natDigitsAux, if_pos h10, List.mem_singleton] at hc
      subst hc
      interval_cases n <;> decide
    · have hrec : n / 10 < f := by
        have hlt : n / 10 < n := Nat.div_lt_self (by omega) (by omega)
        omega
      have := ih (n / 10) hrec
      refine ⟨by simp [natDigitsAux, h10], ?_⟩
      intro c hc
      simp only [natDigitsAux, if_neg h10, List.mem_append, List.mem_singleton] at hc
      rcases hc with hc | hc
      · exact this.2 c hc
      · subst hc
        have hm : n % 10 < 10 := Nat.mod_lt _ (by omega)
        set r := n % 10
        interval_cases r <;> decide

theorem natToString_digits (n : ℕ) :
    (natToString n).data ≠ [] ∧ ∀ c ∈ (natToString n).data, c.isDigit = true := by
  have := natDigitsAux_spec (n + 1) n (by omega)
  simpa [natToString] using this

theorem charUpper_base36 {d : ℕ} (hd : d < 36) :
    isUpperAlnum (charUpper (base36Char d)) = true := by
  interval_cases d <;> decide

theorem takeWhile_all_append {p : Char → Bool} :
    ∀ (l1 : List Char) (c : Char) (l2 : List Char),
      (∀ x ∈ l1, p x = true) → p c = false →
      (l1 ++ c :: l2).takeWhile p = l1 ∧ (l1 ++ c :: l2).dropWhile p = c :: l2 := by
  intro l1
  induction l1 with
  | nil =>
    intro c l2 _ hc
    simp [List.takeWhile, List.dropWhile, hc]
  | cons x xs ih =>
    intro c l2 hall hc
    have hx : p x = true := hall x (by simp)
    have := ih c l2 (fun y hy => hall y (by simp [hy])) hc
    simp [List.takeWhile, List.dropWhile, hx, this.1, this.2]

theorem randSuffix_of_length {digits : List ℕ} (h5 : 5 ≤ digits.length)
    (hd : ∀ d ∈ digits, d < 36) :
    (randSuffix digits).data = (digits.take 5).map (fun d => charUpper (base36Char d))
      ∧ (randSuffix digits).length = 5
      ∧ (randSuffix digits).data.all isUpperAlnum = true := by
  have hne : digits ≠ [] := by
    intro h
    rw [h] at h5
    simp at h5
  obtain ⟨d0, ds, rfl⟩ := List.exists_cons_of_ne_nil hne
  have hdata : (randSuffix (d0 :: ds)).data
      = ((d0 :: ds).take 5).map (fun d => charUpper (base36Char d)) := by
    simp only [randSuffix, randToString36, jsSubstr, jsUpper]
    simp [List.map_take, Function.comp_def]
  refine ⟨hdata, ?_, ?_⟩
  · have : (randSuffix (d0 :: ds)).length = (randSuffix (d0 :: ds)).data.length := rfl
    rw [this, hdata]
    simp only [List.length_map, List.length_take]
    omega
  · rw [hdata, List.all_eq_true]
    intro c hc
    simp only [List.mem_map] at hc
    obtain ⟨d, hdm, rfl⟩ := hc
    exact charUpper_base36 (hd d (List.mem_of_mem_take hdm))

/-- Any quote identifier whose random draw printed at least five base-36
digits matches `^Q-\d+-[A-Z0-9]+$`. -/
theorem mkQuoteId_matches {now : ℕ} {digits : List ℕ} (h5 : 5 ≤ digits.length)
    (hd : ∀ d ∈ digits, d < 36) :
    matchesQuoteIdPattern (mkQuoteId now digits) = true := by
  obtain ⟨hsfx, hlen, hall⟩ := randSuffix_of_length h5 hd
  obtain ⟨hne, hdig⟩ := natToString_digits now
  have hdata : (mkQuoteId now digits).data
      = 'Q' :: '-' :: ((natToString now).data ++ '-' :: (randSuffix digits).data) := by
    simp [mkQuoteId, String.data_append]
  have hsplit := takeWhile_all_append (natToString now).data '-' (randSuffix digits).data
    hdig (by decide)
  rw [matchesQuoteIdPattern, hdata]
  simp only [hsplit.1, hsplit.2]
  have hsne : (randSuffix digits).data ≠ [] := by
    intro h
    have hlen' : (randSuffix digits).data.length = 5 := hlen
    rw [h] at hlen'
    simp at hlen'
  simp [hne, hsne, hall]

/-- Whatever the request, a response carrying a quote carries the generated
identifier `mkQuoteId now digits` and the timestamp `now`. -/
theorem fetch_quoteId (method : String) (b? : Option Body) (now : ℕ)
    (rd : List ℕ) (p : JSNum) (qid : String) (t : ℕ)
    (h : (fetch method b? now rd).body = ResBody.quote p qid t) :
    qid = mkQuoteId now rd ∧ t = now := by
  simp only [fetch, handleBody] at h
  repeat' split at h
  all_goals
    simp only [preflightResp, methodNotAllowedResp, invalidJSONResp, missingFieldsResp,
      invalidRevenueResp, invalidStateResp, invalidBusinessResp] at h
  all_goals first
    | (cases h; exact ⟨rfl, rfl⟩)
    | simp at h

/-! ## Claims -/

set_option maxRecDepth 40000

/-- C1: for every request passing all four validation checks (numeric
revenue `≥ 0`, uppercased state in the state table, lowercased business in
the business table), the returned premium is
`revenue * 0.025 * businessMultiplier * stateMultiplier` rounded half-up to
2 decimal places, with the fixed tables `retail=1.0, restaurant=1.3,
professional=0.8, manufacturing=1.5` and `CA=1.2, TX=1.0, NY=1.3, WI=0.9,
OH=0.85, IL=1.1, NV=1.15`; in particular revenue 50000 / CA / retail prices
at exactly 1500.00, and revenue 0 prices at exactly 0.00. -/
theorem C1_premium_formula :
    (∀ (q : ℚ) (s bz : String) (now : ℕ) (rd : List ℕ) (bm sm : ℚ),
        0 ≤ q →
        validStates.contains (jsUpper s) = true →
        validBusinessTypes.contains (jsLower bz) = true →
        businessMultipliers (jsLower bz) = some bm →
        stateMultipliers (jsUpper s) = some sm →
        premiumVal (fetch "POST" (some ⟨.num (.fin q), .str s, .str bz⟩) now rd)
          = some (.fin (roundHalfUpTo2 (q * baseRate * bm * sm))))
    ∧ baseRate = 25/1000
    ∧ businessMultipliers "retail" = some 1
    ∧ businessMultipliers "restaurant" = some (13/10)
    ∧ businessMultipliers "professional" = some (8/10)
    ∧ businessMultipliers "manufacturing" = some (15/10)
    ∧ stateMultipliers "CA" = some (12/10)
    ∧ stateMultipliers "TX" = some 1
    ∧ stateMultipliers "NY" = some (13/10)
    ∧ stateMultipliers "WI" = some (9/10)
    ∧ stateMultipliers "OH" = some (85/100)
    ∧ stateMultipliers "IL" = some (11/10)
    ∧ stateMultipliers "NV" = some (115/100)
    ∧ premiumVal (fetch "POST"
        (some ⟨.num (.fin 50000), .str "CA", .str "retail"⟩) 0 []) = some (.fin 1500)
    ∧ (∀ (s bz : String) (now : ℕ) (rd : List ℕ),
        validStates.contains (jsUpper s) = true →
        validBusinessTypes.contains (jsLower bz) = true →
        premiumVal (fetch "POST" (some ⟨.num (.fin 0), .str s, .str bz⟩) now rd)
          = some (.fin 0)) := by
  have hmain : ∀ (q : ℚ) (s bz : String) (now : ℕ) (rd : List ℕ) (bm sm : ℚ),
      0 ≤ q →
      validStates.contains (jsUpper s) = true →
      validBusinessTypes.contains (jsLower bz) = true →
      businessMultipliers (jsLower bz) = some bm →
      stateMultipliers (jsUpper s) = some sm →
      premiumVal (fetch "POST" (some ⟨.num (.fin q), .str s, .str bz⟩) now rd)
        = some (.fin (roundHalfUpTo2 (q * baseRate * bm * sm))) := by
    intro q s bz now rd bm sm hq hcs hcb hbm hsm
    rw [handle_success q s bz now rd bm sm (not_lt.mpr hq) hcs hcb hbm hsm]
    rfl
  refine ⟨hmain, rfl, rfl, rfl, rfl, rfl, rfl, rfl, rfl, rfl, rfl, rfl, rfl,
    by with_unfolding_all decide, ?_⟩
  intro s bz now rd hcs hcb
  obtain ⟨bm, hbm, -⟩ := businessMult_of_mem hcb
  obtain ⟨sm, hsm, -⟩ := stateMult_of_mem hcs
  rw [hmain 0 s bz now rd bm sm le_rfl hcs hcb hbm hsm]
  have h0 : roundHalfUpTo2 (0 * baseRate * bm * sm) = 0 := by
    have harg : (0 : ℚ) * baseRate * bm * sm = 0 := by ring
    rw [roundHalfUpTo2, harg]
    have hfl : ⌊(0 : ℚ) * 100 + 1/2⌋ = 0 := by
      apply Int.floor_eq_zero_iff.mpr
      rw [Set.mem_Ico]
      norm_num
    rw [hfl]
    norm_num
  rw [h0]

/-- Witness for C1 at revenue 50000, state CA, business retail. -/
theorem C1_premium_formula_witness :
    premiumVal (fetch "POST"
        (some ⟨.num (.fin 50000), .str "CA", .str "retail"⟩) 3 [1, 2, 3, 4, 5])
      = some (.fin (roundHalfUpTo2 (50000 * baseRate * 1 * (12/10)))) :=
  C1_premium_formula.1 50000 "CA" "retail" 3 [1, 2, 3, 4, 5] 1 (12/10)
    (by norm_num) (by decide) (by decide)
    (by with_unfolding_all decide) (by with_unfolding_all decide)

/-- C2: validation short-circuits in the fixed order presence →
revenue type/range → state membership → business membership, and the first
failing check alone determines the (single) reported error response. -/
theorem C2_validation_order (b : Body) (now : ℕ) (rd : List ℕ) :
    (missingFields b = true →
      fetch "POST" (some b) now rd = missingFieldsResp)
    ∧ (missingFields b = false → invalidRevenue b.revenue = true →
      fetch "POST" (some b) now rd = invalidRevenueResp)
    ∧ (∀ s : String, b.state = .str s →
      missingFields b = false → invalidRevenue b.revenue = false →
      validStates.contains (jsUpper s) = false →
      fetch "POST" (some b) now rd = invalidStateResp)
    ∧ (∀ s bz : String, b.state = .str s → b.business = .str bz →
      missingFields b = false → invalidRevenue b.revenue = false →
      validStates.contains (jsUpper s) = true →
      validBusinessTypes.contains (jsLower bz) = false →
      fetch "POST" (some b) now rd = invalidBusinessResp) := by
  refine ⟨?_, ?_, ?_, ?_⟩
  · intro hm
    simp [fetch, handleBody, hm]
  · intro hm hr
    simp [fetch, handleBody, hm, hr]
  · intro s hs hm hr hst
    have hst' : ¬ jsUpper s ∈ validStates := by simpa using hst
    simp [fetch, handleBody, hm, hr, hs, hst']
  · intro s bz hs hb hm hr hst hbt
    have hst' : jsUpper s ∈ validStates := by simpa using hst
    have hbt' : ¬ jsLower bz ∈ validBusinessTypes := by simpa using hbt
    simp [fetch, handleBody, hm, hr, hs, hb, hst', hbt']

/-- Witness for C2: a request that both omits `state` and carries a negative
revenue reports `Missing required fields`, not `Invalid revenue`. -/
theorem C2_validation_order_witness :
    fetch "POST" (some ⟨.num (.fin (-5000)), .undefined, .str "retail"⟩) 0 []
      = missingFieldsResp :=
  (C2_validation_order ⟨.num (.fin (-5000)), .undefined, .str "retail"⟩ 0 []).1
    (by with_unfolding_all decide)

/-- C3 counterexample: the claim says a NaN revenue is rejected as
`Invalid revenue`, but the handler's check `revenue < 0` is false for NaN,
so a NaN revenue is priced: status 200, no error, premium NaN. -/
theorem C3_nan_counterexample :
    (fetch "POST" (some ⟨.num .nan, .str "CA", .str "retail"⟩) 0 []).status = 200
    ∧ responseError (fetch "POST" (some ⟨.num .nan, .str "CA", .str "retail"⟩) 0 []) = none
    ∧ premiumVal (fetch "POST" (some ⟨.num .nan, .str "CA", .str "retail"⟩) 0 [])
        = some .nan := by
  with_unfolding_all decide

/-- C3 (amended): past the presence check, the handler answers
`Invalid revenue` iff revenue is not of numeric type or compares `< 0`
(so numeric strings and negatives are rejected, and for finite revenue this
agrees with "not ≥ 0"); but a numeric revenue that does not compare `< 0` —
including NaN and +Infinity — is priced, not rejected. -/
theorem C3_invalid_revenue_iff (b : Body) (now : ℕ) (rd : List ℕ)
    (hm : missingFields b = false) :
    (fetch "POST" (some b) now rd = invalidRevenueResp
      ↔ (b.revenue.isNumber = false ∨ ∃ n, b.revenue = .num n ∧ n.lt0 = true))
    ∧ (∀ s bz : String, b.state = .str s → b.business = .str bz →
        validStates.contains (jsUpper s) = true →
        validBusinessTypes.contains (jsLower bz) = true →
        invalidRevenue b.revenue = false →
        (fetch "POST" (some b) now rd).status = 200) := by
  have hiff : invalidRevenue b.revenue = true
      ↔ (b.revenue.isNumber = false ∨ ∃ n, b.revenue = .num n ∧ n.lt0 = true) := by
    cases hrev : b.revenue <;> simp [invalidRevenue, JSValue.isNumber]
  constructor
  · rw [← hiff]
    by_cases hinv : invalidRevenue b.revenue = true
    · constructor
      · intro _
        exact hinv
      · intro _
        simp [fetch, handleBody, hm, hinv]
    · have hinv' : invalidRevenue b.revenue = false := by simpa using hinv
      constructor
      · intro hres
        exfalso
        simp only [fetch, handleBody, hm, hinv'] at hres
        rw [if_neg (by decide : ¬ ("POST" : String) = "OPTIONS"),
          if_neg (by simp : ¬ ("POST" : String) ≠ "POST")] at hres
        simp only [Bool.false_eq_true, if_false] at hres
        repeat' split at hres
        all_goals simp [invalidRevenueResp, invalidStateResp, invalidBusinessResp,
          invalidJSONResp, missingFieldsResp] at hres
      · intro hrhs
        exact absurd hrhs (by simp [hinv'])
  · intro s bz hs hb hcs hcb hinv
    have hcs' : jsUpper s ∈ validStates := by simpa using hcs
    have hcb' : jsLower bz ∈ validBusinessTypes := by simpa using hcb
    simp [fetch, handleBody, hm, hinv, hs, hb, hcs', hcb']

/-- Witness for C3: a numeric-looking string revenue `"50000"` is rejected
as `Invalid revenue`, not coerced. -/
theorem C3_invalid_revenue_iff_witness :
    fetch "POST" (some ⟨.str "50000", .str "CA", .str "retail"⟩) 0 []
      = invalidRevenueResp :=
  ((C3_invalid_revenue_iff ⟨.str "50000", .str "CA", .str "retail"⟩ 0 []
    (by decide)).1).mpr (Or.inl (by decide))

/-- C4 counterexample: when the random draw is exactly `0`,
`Math.random().toString(36)` is `"0"`, `substr(2, 5)` is empty, and the
quote identifier `Q-5-` has an empty suffix, failing `^Q-\d+-[A-Z0-9]+$`
and the exactly-5-characters clause. -/
theorem C4_counterexample :
    (fetch "POST" (some ⟨.num (.fin 50000), .str "CA", .str "retail"⟩) 5 []).body
      = ResBody.quote (.fin 1500) (mkQuoteId 5 []) 5
    ∧ mkQuoteId 5 [] = "Q-5-"
    ∧ matchesQuoteIdPattern "Q-5-" = false
    ∧ (randSuffix []).length ≠ 5 := by
  with_unfolding_all decide

/-- C4 (amended): whenever the random draw prints at least five fractional
base-36 digits (which JSON-observable draws other than degenerate short
expansions do), every quote-carrying response's quoteId is
`Q-{timestamp}-{suffix}`, matches `^Q-\d+-[A-Z0-9]+$`, and the suffix has
exactly 5 uppercase-alphanumeric characters; for shorter draws the suffix
is shorter (empty for a draw of exactly 0) and the pattern can fail. -/
theorem C4_quoteId_format (now : ℕ) (digits : List ℕ)
    (h5 : 5 ≤ digits.length) (hd : ∀ d ∈ digits, d < 36) :
    (∀ (method : String) (b? : Option Body) (p : JSNum) (qid : String) (t : ℕ),
        (fetch method b? now digits).body = ResBody.quote p qid t →
        matchesQuoteIdPattern qid = true ∧ qid = mkQuoteId now digits)
    ∧ (randSuffix digits).length = 5
    ∧ (randSuffix digits).data.all isUpperAlnum = true := by
  obtain ⟨-, hlen, hall⟩ := randSuffix_of_length h5 hd
  refine ⟨?_, hlen, hall⟩
  intro method b? p qid t h
  obtain ⟨rfl, -⟩ := fetch_quoteId method b? now digits p qid t h
  exact ⟨mkQuoteId_matches h5 hd, rfl⟩

/-- Witness for C4 (amended) at a concrete five-digit draw. -/
theorem C4_quoteId_format_witness :
    matchesQuoteIdPattern (mkQuoteId 7 [0, 1, 2, 34, 35]) = true
    ∧ (randSuffix [0, 1, 2, 34, 35]).length = 5 :=
  have h := C4_quoteId_format 7 [0, 1, 2, 34, 35] (by decide) (by decide)
  ⟨(h.1 "POST" (some ⟨.num (.fin 50000), .str "CA", .str "retail"⟩) (.fin 1500)
      (mkQuoteId 7 [0, 1, 2, 34, 35]) 7 (by with_unfolding_all decide)).1,
    h.2.1⟩

/-- C5: state and business handling is case-insensitive — replacing each by
any mixed-case variant of the same letters leaves the entire response
(validation outcome and premium included) unchanged. -/
theorem C5_case_insensitive (rev : JSValue) (s t bz bw : String) (now : ℕ)
    (rd : List ℕ) (hst : caseVariant s t = true) (hbw : caseVariant bz bw = true) :
    fetch "POST" (some ⟨rev, .str s, .str bz⟩) now rd
      = fetch "POST" (some ⟨rev, .str t, .str bw⟩) now rd :=
  fetch_caseVariant rev s t bz bw now rd hst hbw

/-- Witness for C5: state `ca` with business `RETAIL` is handled exactly as
`CA` with `retail`. -/
theorem C5_case_insensitive_witness :
    fetch "POST" (some ⟨.num (.fin 50000), .str "ca", .str "RETAIL"⟩) 3 [7, 7, 7, 7, 7]
      = fetch "POST" (some ⟨.num (.fin 50000), .str "CA", .str "retail"⟩) 3 [7, 7, 7, 7, 7] :=
  C5_case_insensitive (.num (.fin 50000)) "ca" "CA" "RETAIL" "retail" 3 [7, 7, 7, 7, 7]
    (by decide) (by decide)

/-- C6 counterexample: at revenue 0 (a valid revenue) both NY and OH price
at 0.00, so `premium(NY) > premium(OH)` fails; strictness does not hold for
every valid revenue. -/
theorem C6_counterexample :
    premiumVal (fetch "POST" (some ⟨.num (.fin 0), .str "NY", .str "retail"⟩) 0 [])
      = some (.fin 0)
    ∧ premiumVal (fetch "POST" (some ⟨.num (.fin 0), .str "OH", .str "retail"⟩) 0 [])
      = some (.fin 0)
    ∧ ¬ ∃ a b : ℚ,
        premiumVal (fetch "POST" (some ⟨.num (.fin 0), .str "NY", .str "retail"⟩) 0 [])
          = some (.fin a)
        ∧ premiumVal (fetch "POST" (some ⟨.num (.fin 0), .str "OH", .str "retail"⟩) 0 [])
          = some (.fin b)
        ∧ b < a := by
  have h1 : premiumVal (fetch "POST" (some ⟨.num (.fin 0), .str "NY", .str "retail"⟩) 0 [])
      = some (.fin 0) := by with_unfolding_all decide
  have h2 : premiumVal (fetch "POST" (some ⟨.num (.fin 0), .str "OH", .str "retail"⟩) 0 [])
      = some (.fin 0) := by with_unfolding_all decide
  refine ⟨h1, h2, ?_⟩
  rintro ⟨a, b, ha, hb, hab⟩
  rw [h1] at ha
  rw [h2] at hb
  injection ha with ha'
  injection ha' with ha''
  injection hb with hb'
  injection hb' with hb''
  rw [← ha'', ← hb''] at hab
  exact absurd hab (by norm_num)

/-- C6 (amended): for fixed valid revenue and business,
`premium(NY) ≥ premium(OH)`, and for fixed valid revenue and state,
`premium(manufacturing) ≥ premium(professional)`; both inequalities are
strict whenever revenue is at least 2, but rounding makes them equalities
at revenue 0 and other tiny revenues. -/
theorem C6_multiplier_ordering :
    (∀ (q : ℚ) (bz : String) (bm : ℚ) (n1 n2 : ℕ) (r1 r2 : List ℕ) (pNY pOH : ℚ),
        0 ≤ q →
        validBusinessTypes.contains (jsLower bz) = true →
        businessMultipliers (jsLower bz) = some bm →
        premiumVal (fetch "POST" (some ⟨.num (.fin q), .str "NY", .str bz⟩) n1 r1)
          = some (.fin pNY) →
        premiumVal (fetch "POST" (some ⟨.num (.fin q), .str "OH", .str bz⟩) n2 r2)
          = some (.fin pOH) →
        pOH ≤ pNY ∧ (2 ≤ q → pOH < pNY))
    ∧ (∀ (q : ℚ) (s : String) (sm : ℚ) (n1 n2 : ℕ) (r1 r2 : List ℕ) (pM pP : ℚ),
        0 ≤ q →
        validStates.contains (jsUpper s) = true →
        stateMultipliers (jsUpper s) = some sm →
        premiumVal (fetch "POST" (some ⟨.num (.fin q), .str s, .str "manufacturing"⟩) n1 r1)
          = some (.fin pM) →
        premiumVal (fetch "POST" (some ⟨.num (.fin q), .str s, .str "professional"⟩) n2 r2)
          = some (.fin pP) →
        pP ≤ pM ∧ (2 ≤ q → pP < pM)) := by
  constructor
  · intro q bz bm n1 n2 r1 r2 pNY pOH hq hcb hbm hNY hOH
    obtain ⟨bm', hbm', hbm'pos, hbm'lo, -⟩ := businessMult_of_mem hcb
    rw [hbm'] at hbm
    injection hbm with hbmeq
    subst hbmeq
    rw [handle_success q "NY" bz n1 r1 bm' (13/10) (not_lt.mpr hq) (by decide) hcb hbm'
      (by with_unfolding_all decide)] at hNY
    rw [handle_success q "OH" bz n2 r2 bm' (85/100) (not_lt.mpr hq) (by decide) hcb hbm'
      (by with_unfolding_all decide)] at hOH
    simp only [premiumVal, Option.some.injEq, JSNum.fin.injEq] at hNY hOH
    rw [← hNY, ← hOH]
    have hqbm : 0 ≤ q * bm' := mul_nonneg hq hbm'pos.le
    constructor
    · apply floorDiv100_mono
      rw [show baseRate = 25/1000 from rfl]
      nlinarith [hqbm]
    · intro h2q
      apply floorDiv100_strict
      rw [show baseRate = 25/1000 from rfl]
      have hge : (2 : ℚ) * (8/10) ≤ q * bm' :=
        mul_le_mul h2q hbm'lo (by norm_num) (by linarith)
      nlinarith [hge]
  · intro q s sm n1 n2 r1 r2 pM pP hq hcs hsm hM hP
    obtain ⟨sm', hsm', hsm'pos, hsm'lo, -⟩ := stateMult_of_mem hcs
    rw [hsm'] at hsm
    injection hsm with hsmeq
    subst hsmeq
    rw [handle_success q s "manufacturing" n1 r1 (15/10) sm' (not_lt.mpr hq) hcs (by decide)
      (by with_unfolding_all decide) hsm'] at hM
    rw [handle_success q s "professional" n2 r2 (8/10) sm' (not_lt.mpr hq) hcs (by decide)
      (by with_unfolding_all decide) hsm'] at hP
    simp only [premiumVal, Option.some.injEq, JSNum.fin.injEq] at hM hP
    rw [← hM, ← hP]
    have hqsm : 0 ≤ q * sm' := mul_nonneg hq hsm'pos.le
    constructor
    · apply floorDiv100_mono
      rw [show baseRate = 25/1000 from rfl]
      nlinarith [hqsm]
    · intro h2q
      apply floorDiv100_strict
      rw [show baseRate = 25/1000 from rfl]
      have hge : (2 : ℚ) * (85/100) ≤ q * sm' :=
        mul_le_mul h2q hsm'lo (by norm_num) (by linarith)
      nlinarith [hge]

/-- Witness for C6 (amended): revenue 50000, business retail gives
premium(NY) = 1625.00 > 1062.50 = premium(OH). -/
theorem C6_multiplier_ordering_witness :
    ((2125/2 : ℚ) ≤ 1625 ∧ (2 ≤ (50000 : ℚ) → (2125/2 : ℚ) < 1625)) := by
  have h := C6_multiplier_ordering.1 50000 "retail" 1 0 0 [] [] 1625 (2125/2)
    (by norm_num) (by decide) (by with_unfolding_all decide)
    (by with_unfolding_all decide) (by with_unfolding_all decide)
  exact h

/-- C7: with state and business fixed at valid values, the premium scales
linearly with revenue up to the rounding tolerance — doubling the revenue
changes the premium by at most one cent from double the original premium —
and the premium is monotone non-decreasing in revenue. -/
theorem C7_linear_scaling (q q' : ℚ) (s bz : String) (bm sm : ℚ)
    (n1 n2 n3 : ℕ) (r1 r2 r3 : List ℕ)
    (hq : 0 ≤ q)
    (hcs : validStates.contains (jsUpper s) = true)
    (hcb : validBusinessTypes.contains (jsLower bz) = true)
    (hbm : businessMultipliers (jsLower bz) = some bm)
    (hsm : stateMultipliers (jsUpper s) = some sm) :
    (∀ p1 p2 : ℚ,
        premiumVal (fetch "POST" (some ⟨.num (.fin q), .str s, .str bz⟩) n1 r1)
          = some (.fin p1) →
        premiumVal (fetch "POST" (some ⟨.num (.fin (2 * q)), .str s, .str bz⟩) n2 r2)
          = some (.fin p2) →
        |p2 - 2 * p1| ≤ 1/100)
    ∧ (q ≤ q' → ∀ p1 p3 : ℚ,
        premiumVal (fetch "POST" (some ⟨.num (.fin q), .str s, .str bz⟩) n1 r1)
          = some (.fin p1) →
        premiumVal (fetch "POST" (some ⟨.num (.fin q'), .str s, .str bz⟩) n3 r3)
          = some (.fin p3) →
        p1 ≤ p3) := by
  obtain ⟨bm', hbm', hbm'pos, -, -⟩ := businessMult_of_mem hcb
  obtain ⟨sm', hsm', hsm'pos, -, -⟩ := stateMult_of_mem hcs
  rw [hbm'] at hbm
  injection hbm with hbmeq
  subst hbmeq
  rw [hsm'] at hsm
  injection hsm with hsmeq
  subst hsmeq
  constructor
  · intro p1 p2 h1 h2
    rw [handle_success q s bz n1 r1 bm' sm' (not_lt.mpr hq) hcs hcb hbm' hsm'] at h1
    rw [handle_success (2 * q) s bz n2 r2 bm' sm'
      (not_lt.mpr (by linarith)) hcs hcb hbm' hsm'] at h2
    simp only [premiumVal, Option.some.injEq, JSNum.fin.injEq] at h1 h2
    rw [← h1, ← h2]
    have harg : 2 * q * baseRate * bm' * sm' * 100
        = 2 * (q * baseRate * bm' * sm' * 100) := by ring
    rw [harg]
    exact floor_double_bound (q * baseRate * bm' * sm' * 100)
  · intro hle p1 p3 h1 h3
    rw [handle_success q s bz n1 r1 bm' sm' (not_lt.mpr hq) hcs hcb hbm' hsm'] at h1
    rw [handle_success q' s bz n3 r3 bm' sm'
      (not_lt.mpr (by linarith)) hcs hcb hbm' hsm'] at h3
    simp only [premiumVal, Option.some.injEq, JSNum.fin.injEq] at h1 h3
    rw [← h1, ← h3]
    apply floorDiv100_mono
    rw [show baseRate = 25/1000 from rfl]
    nlinarith [mul_pos hbm'pos hsm'pos, mul_le_mul_of_nonneg_right hle
      (le_of_lt (mul_pos hbm'pos hsm'pos))]

/-- Witness for C7: revenue 25000 → 750.00 and revenue 50000 → 1500.00 for
CA/retail; doubling is exact here and monotone. -/
theorem C7_linear_scaling_witness :
    |(1500 : ℚ) - 2 * 750| ≤ 1/100 ∧ (750 : ℚ) ≤ 1500 :=
  have h := C7_linear_scaling 25000 50000 "CA" "retail" 1 (12/10) 0 0 0 [] [] []
    (by norm_num) (by decide) (by decide)
    (by with_unfolding_all decide) (by with_unfolding_all decide)
  ⟨h.1 750 1500 (by with_unfolding_all decide) (by with_unfolding_all decide),
    h.2 (by norm_num) 750 1500 (by with_unfolding_all decide)
      (by with_unfolding_all decide)⟩

/-- C8: the premium (and the status and error category) is a deterministic
pure function of the request alone — two invocations with the same method
and body but different time and random draws agree on everything except the
quoteId and timestamp. -/
theorem C8_premium_deterministic (method : String) (b? : Option Body)
    (n1 n2 : ℕ) (r1 r2 : List ℕ) :
    premiumVal (fetch method b? n1 r1) = premiumVal (fetch method b? n2 r2)
    ∧ (fetch method b? n1 r1).status = (fetch method b? n2 r2).status
    ∧ responseError (fetch method b? n1 r1) = responseError (fetch method b? n2 r2) := by
  unfold fetch handleBody
  repeat' split
  all_goals simp [premiumVal, responseError]

/-- C9 counterexample: an OPTIONS request is answered with the CORS
preflight response (status 200), not with 405, so "every non-POST method
gets 405, including OPTIONS" fails. -/
theorem C9_counterexample :
    fetch "OPTIONS" none 0 [] = preflightResp
    ∧ (fetch "OPTIONS" none 0 []).status = 200
    ∧ (fetch "OPTIONS" none 0 []).status ≠ 405 := by
  decide

/-- C9 (amended): every request whose method is neither POST nor OPTIONS is
answered with status 405 and the `Method not allowed` error, independent of
the body (no validation or pricing happens); OPTIONS instead receives the
CORS preflight response with status 200. -/
theorem C9_method_not_allowed (method : String) (b? : Option Body) (now : ℕ)
    (rd : List ℕ) (hpost : method ≠ "POST") (hopt : method ≠ "OPTIONS") :
    fetch method b? now rd = methodNotAllowedResp
    ∧ (fetch method b? now rd).status = 405
    ∧ responseError (fetch method b? now rd) = some "Method not allowed" := by
  have h : fetch method b? now rd = methodNotAllowedResp := by
    simp [fetch, hpost, hopt]
  exact ⟨h, by rw [h]; rfl, by rw [h]; rfl⟩

/-- Witness for C9 (amended) at method GET. -/
theorem C9_method_not_allowed_witness :
    fetch "GET" (some ⟨.num (.fin 50000), .str "CA", .str "retail"⟩) 0 []
      = methodNotAllowedResp
    ∧ (fetch "GET" (some ⟨.num (.fin 50000), .str "CA", .str "retail"⟩) 0 []).status = 405
    ∧ responseError (fetch "GET" (some ⟨.num (.fin 50000), .str "CA", .str "retail"⟩) 0 [])
      = some "Method not allowed" :=
  C9_method_not_allowed "GET" (some ⟨.num (.fin 50000), .str "CA", .str "retail"⟩) 0 []
    (by decide) (by decide)

/-- C10: a present-but-null revenue passes the presence check (only an
absent/undefined revenue counts as missing) and is then rejected as
`Invalid revenue` (status 400), not as `Missing required fields`. -/
theorem C10_null_revenue (s bz : String) (now : ℕ) (rd : List ℕ)
    (hs : s ≠ "") (hb : bz ≠ "") :
    missingFields ⟨.null, .str s, .str bz⟩ = false
    ∧ fetch "POST" (some ⟨.null, .str s, .str bz⟩) now rd = invalidRevenueResp
    ∧ (fetch "POST" (some ⟨.null, .str s, .str bz⟩) now rd).status = 400
    ∧ responseError (fetch "POST" (some ⟨.null, .str s, .str bz⟩) now rd)
      = some "Invalid revenue" := by
  have hm : missingFields ⟨.null, .str s, .str bz⟩ = false := by
    simp [missingFields, JSValue.truthy, hs, hb]
  have h : fetch "POST" (some ⟨.null, .str s, .str bz⟩) now rd = invalidRevenueResp := by
    simp [fetch, handleBody, hm, invalidRevenue]
  exact ⟨hm, h, by rw [h]; rfl, by rw [h]; rfl⟩

/-- Witness for C10 at state CA, business retail. -/
theorem C10_null_revenue_witness :
    missingFields ⟨.null, .str "CA", .str "retail"⟩ = false
    ∧ fetch "POST" (some ⟨.null, .str "CA", .str "retail"⟩) 0 [] = invalidRevenueResp
    ∧ (fetch "POST" (some ⟨.null, .str "CA", .str "retail"⟩) 0 []).status = 400
    ∧ responseError (fetch "POST" (some ⟨.null, .str "CA", .str "retail"⟩) 0 [])
      = some "Invalid revenue" :=
  C10_null_revenue "CA" "retail" 0 [] (by decide) (by decide)

end RatingWorker

